import Mathlib

/-!
Verification of the counterfactual-generation design specified for the
`explainable-ai` repository.  The repository's notebook delegates the
search to an external explanation library, so the generation pipeline
below (schema, candidate generator, diversity/proximity selector,
error handling) is modelled from the specification's standalone design;
the scikit-learn classification pipeline built in the notebook itself
(a `ColumnTransformer` holding only a categorical one-hot encoder,
feeding a random forest) is embedded from the notebook's code.
-/

namespace XAI

/-- A feature value: numeric (continuous features) or a category string. -/
inductive Value where
  | num (n : Int)
  | cat (s : String)
deriving DecidableEq, Repr

/-- Feature kind: continuous or categorical. -/
inductive FeatureKind where
  | continuous
  | categorical
deriving DecidableEq, Repr

/-- Modelled from the spec: a feature domain is a numeric range `[lo, hi]`
or a set of allowed category strings. -/
inductive Domain where
  | range (lo hi : Int)
  | cats (cs : List String)
deriving DecidableEq, Repr

/-- Modelled from the spec: a feature descriptor records name, kind,
domain, and mutability. -/
structure FeatureDescriptor where
  name : String
  kind : FeatureKind
  domain : Domain
  mutable : Bool
deriving DecidableEq, Repr

/-- A row: mapping from feature name to value, as an association list. -/
abbrev Row := List (String × Value)

/-- Look a feature up in a row. -/
def rowLookup (r : Row) (n : String) : Option Value :=
  (r.find? (fun p => p.1 = n)).map Prod.snd

/-- Look a feature up, defaulting to `Value.num 0` when absent. -/
def rowLookupD (r : Row) (n : String) : Value :=
  (rowLookup r n).getD (Value.num 0)

/-- Membership of a value in a domain. -/
def memD (v : Value) (d : Domain) : Prop :=
  match v, d with
  | Value.num n, Domain.range lo hi => lo ≤ n ∧ n ≤ hi
  | Value.cat s, Domain.cats cs => s ∈ cs
  | _, _ => False

instance (v : Value) (d : Domain) : Decidable (memD v d) := by
  unfold memD
  cases v <;> cases d <;> infer_instance

/-- Emptiness test for a domain. -/
def domainEmpty : Domain → Bool
  | Domain.range lo hi => hi < lo
  | Domain.cats cs => cs.isEmpty

/-- Modelled from the spec: intersection of a schema domain with a
caller-supplied permitted-range override.  Mismatched kinds intersect
to an empty domain. -/
def intersectD : Domain → Domain → Domain
  | Domain.range lo hi, Domain.range lo' hi' => Domain.range (max lo lo') (min hi hi')
  | Domain.cats cs, Domain.cats cs' => Domain.cats (cs.filter (fun c => c ∈ cs'))
  | Domain.range _ _, Domain.cats _ => Domain.cats []
  | Domain.cats _, Domain.range _ _ => Domain.cats []

/-- A permitted-range override: feature name to narrowed domain. -/
abbrev PermittedRange := List (String × Domain)

/-- Look up an override for a feature. -/
def prLookup (pr : PermittedRange) (n : String) : Option Domain :=
  (pr.find? (fun p => p.1 = n)).map Prod.snd

/-- Modelled from the spec: the effective sampling domain of a feature is
the schema domain intersected with the caller override when one exists. -/
def effectiveDomain (d : FeatureDescriptor) (pr : PermittedRange) : Domain :=
  match prLookup pr d.name with
  | none => d.domain
  | some o => intersectD d.domain o

/-- Modelled from the spec: the first schema feature whose supplied
permitted range does not intersect the schema domain, if any. -/
def firstEmptyOverride (schema : List FeatureDescriptor) (pr : PermittedRange) :
    Option String :=
  (schema.find? (fun d => (prLookup pr d.name).isSome && domainEmpty (effectiveDomain d pr))).map
    (fun d => d.name)

/-- A linear-congruential pseudo-random step, the explicit seeded
randomness source of the pipeline. -/
def rngNext (s : Nat) : Nat :=
  (s * 1103515245 + 12345) % 2147483648

/-- Modelled from the spec: sample a value from a domain using one random
draw; continuous features sample from the numeric range, categorical
features sample from the category set. -/
def sampleDomain (d : Domain) (r : Nat) : Value :=
  match d with
  | Domain.range lo hi => Value.num (lo + Int.ofNat (r % ((hi - lo).toNat + 1)))
  | Domain.cats cs => Value.cat (cs.getD (r % cs.length) "")

/-- The optional `features_to_vary` restriction; `none` means all mutable
features may vary. -/
abbrev FeaturesToVary := Option (List String)

/-- Whether a feature is varied: it must be mutable and, when a
`features_to_vary` list is supplied, listed there. -/
def varies (ftv : FeaturesToVary) (d : FeatureDescriptor) : Bool :=
  d.mutable &&
    (match ftv with
     | none => true
     | some l => decide (d.name ∈ l))

/-- Modelled from the spec: build one candidate row.  Each varied feature
is sampled independently from its effective domain; every other feature
is copied unchanged from the query row. -/
def buildCandidate (query : Row) (ftv : FeaturesToVary) (pr : PermittedRange) :
    List FeatureDescriptor → Nat → Row
  | [], _ => []
  | d :: ds, s =>
      (d.name,
        if varies ftv d then sampleDomain (effectiveDomain d pr) (rngNext s)
        else rowLookupD query d.name) :: buildCandidate query ftv pr ds (s + 1)

/-- Modelled from the spec: draw `n` candidates starting at draw index `i`,
each candidate from its own seed region. -/
def drawFrom (schema : List FeatureDescriptor) (query : Row) (ftv : FeaturesToVary)
    (pr : PermittedRange) (seed : Nat) : Nat → Nat → List Row
  | _, 0 => []
  | i, n + 1 =>
      buildCandidate query ftv pr schema (seed + 97 * i) ::
        drawFrom schema query ftv pr seed (i + 1) n

/-- Modelled from the spec: the finite prefix of the candidate stream
consumed within the attempts budget. -/
def drawCandidates (schema : List FeatureDescriptor) (query : Row) (ftv : FeaturesToVary)
    (pr : PermittedRange) (seed budget : Nat) : List Row :=
  drawFrom schema query ftv pr seed 0 budget

/-- The desired-outcome specification: the opposite of the original
predicted class, or an explicit target class. -/
inductive DesiredClass where
  | opposite
  | target (c : Nat)
deriving DecidableEq, Repr

/-- Whether a predicted class satisfies the desired outcome, given the
original predicted class. -/
def desiredOk (orig : Nat) (d : DesiredClass) (cls : Nat) : Bool :=
  match d with
  | DesiredClass.opposite => decide (cls ≠ orig)
  | DesiredClass.target t => decide (cls = t)

/-- The surrogate predictor adapter: `predict(row)` yields the predicted
class and class probabilities, or `none` on a prediction failure. -/
abbrev Adapter := Row → Option (Nat × List ℚ)

/-- Modelled from the spec: a candidate is valid iff the adapter succeeds
on it and the predicted class matches the desired outcome; a candidate on
which the adapter fails is simply not valid (it is skipped). -/
def validCandidate (adapter : Adapter) (orig : Nat) (d : DesiredClass) (c : Row) : Bool :=
  match adapter c with
  | none => false
  | some (cls, _) => desiredOk orig d cls

/-- Normalized per-feature distance between two rows over a schema:
continuous features contribute `|a - b| / (hi - lo)` scaled by the schema
range, categorical features contribute a 0/1 mismatch. -/
def rowDist (schema : List FeatureDescriptor) (a b : Row) : ℚ :=
  (schema.map (fun d =>
    match rowLookupD a d.name, rowLookupD b d.name, d.domain with
    | Value.num x, Value.num y, Domain.range lo hi =>
        if lo < hi then (|x - y| : ℚ) / ((hi : ℚ) - (lo : ℚ)) else (|x - y| : ℚ)
    | va, vb, _ => if va = vb then 0 else 1)).sum

/-- Proximity of a candidate to the query: inverse of normalized distance. -/
def proximity (schema : List FeatureDescriptor) (query c : Row) : ℚ :=
  1 / (1 + rowDist schema query c)

/-- Diversity of a candidate against the already-selected candidates:
summed pairwise dissimilarity. -/
def diversity (schema : List FeatureDescriptor) (selected : List Row) (c : Row) : ℚ :=
  (selected.map (fun s => rowDist schema s c)).sum

/-- Modelled from the spec: the greedy selection score
`diversity_weight * diversity_against_selected + proximity_weight * proximity_to_query`. -/
def scoreOf (schema : List FeatureDescriptor) (divW proxW : ℚ) (query : Row)
    (selected : List Row) (c : Row) : ℚ :=
  divW * diversity schema selected c + proxW * proximity schema query c

/-- Pick the element of a list maximizing `f`, breaking ties by the
earliest position; returns the index and the element. -/
def greedyPick {α : Type} (f : α → ℚ) : List α → Option (Nat × α)
  | [] => none
  | x :: xs =>
      match greedyPick f xs with
      | none => some (0, x)
      | some (j, y) => if f x < f y then some (j + 1, y) else some (0, x)

/-- Modelled from the spec: the greedy selection loop — repeatedly pick
the valid candidate maximizing the score against the current selection,
remove it from the pool, and repeat until K picked or the pool is empty. -/
def selectGreedy (score : List Row → Row → ℚ) : Nat → List Row → List Row → List Row
  | 0, sel, _ => sel
  | k + 1, sel, pool =>
      match greedyPick (score sel) pool with
      | none => sel
      | some (j, c) => selectGreedy score k (sel ++ [c]) (pool.eraseIdx j)

/-- Request-scoped errors of the generation pipeline. -/
inductive GenError where
  | constraintError (feature : String)
  | insufficientCandidates (keptSet : List Row) (found requested : Nat)
  | queryPredictionError
deriving DecidableEq

/-- Modelled from the spec: filter a drawn candidate stream to the valid
candidates and greedily select K of them; when fewer than K valid
candidates exist in the stream, fail with `InsufficientCandidatesError`
carrying the partial selection and the counts. -/
def searchFromStream (schema : List FeatureDescriptor) (query : Row) (adapter : Adapter)
    (orig : Nat) (d : DesiredClass) (divW proxW : ℚ) (K : Nat) (rows : List Row) :
    Except GenError (List Row) :=
  let pool := rows.filter (validCandidate adapter orig d)
  let sel := selectGreedy (scoreOf schema divW proxW query) K [] pool
  if sel.length = K then Except.ok sel
  else Except.error (GenError.insufficientCandidates sel pool.length K)

/-- Generation parameters: target count K, desired class, feature-subset
restriction, permitted-range overrides, attempts budget, selector weights,
and the explicit random seed. -/
structure GenParams where
  totalCFs : Nat
  desired : DesiredClass
  featuresToVary : FeaturesToVary
  permittedRange : PermittedRange
  budget : Nat
  divWeight : ℚ
  proxWeight : ℚ
  seed : Nat

/-- Modelled from the spec: the full generation pipeline.  Constraint
validation happens first and aborts the request with a `ConstraintError`
naming the offending feature; then the original class is predicted, the
candidate stream is drawn within the attempts budget, and the
diversity/proximity selector produces the counterfactual set. -/
def generate_counterfactuals (schema : List FeatureDescriptor) (query : Row)
    (adapter : Adapter) (p : GenParams) : Except GenError (List Row) :=
  match firstEmptyOverride schema p.permittedRange with
  | some f => Except.error (GenError.constraintError f)
  | none =>
      match adapter query with
      | none => Except.error GenError.queryPredictionError
      | some (orig, _) =>
          searchFromStream schema query adapter orig p.desired p.divWeight p.proxWeight
            p.totalCFs
            (drawCandidates schema query p.featuresToVary p.permittedRange p.seed p.budget)

/-- The read-only inputs of one generation call: the query row and schema. -/
structure CallEnv where
  schema : List FeatureDescriptor
  query : Row

/-- The outcome of one generation call, recording the query row the call
observed alongside its result. -/
structure CallOutcome where
  observed : Row
  result : Except GenError (List Row)

/-- Modelled from the spec: a generation call as an explicit state
transformer over its environment — QueryRow and FeatureSchema are inputs,
read-only for the duration of the call, and are handed back unchanged. -/
def generateCall (adapter : Adapter) (p : GenParams) (env : CallEnv) :
    CallOutcome × CallEnv :=
  ({ observed := env.query,
     result := generate_counterfactuals env.schema env.query adapter p }, env)

end XAI

namespace Notebook

/-!  Embedding of the notebook's own code: the scikit-learn pipeline
`ColumnTransformer(transformers=[('cat', onehot, categorical)])` followed
by a random forest, where `numerical = ["age", "hours_per_week"]` and
`categorical` is every other feature column. -/

/-- One row of the adult-income feature frame, as the notebook's
dataframe columns. -/
structure AdultRow where
  age : Int
  workclass : String
  education : String
  marital_status : String
  occupation : String
  race : String
  gender : String
  hours_per_week : Int
deriving DecidableEq, Repr

/-- One-hot encode a value against the fitted category list; an unknown
value encodes to the all-zero vector (`handle_unknown=ignore`). -/
def oneHot (cats : List String) (v : String) : List ℚ :=
  cats.map (fun c => if v = c then 1 else 0)

/-- The fitted per-column categories of the one-hot encoder, one list per
categorical column in the transformer's column order. -/
structure FittedEncoder where
  educationCats : List String
  genderCats : List String
  maritalCats : List String
  occupationCats : List String
  raceCats : List String
  workclassCats : List String

/-- The notebook's `ColumnTransformer`: it holds only the categorical
one-hot transformer, and the default remainder policy drops every column
not listed — so `age` and `hours_per_week` never reach the classifier. -/
def columnTransform (enc : FittedEncoder) (r : AdultRow) : List ℚ :=
  oneHot enc.educationCats r.education ++
    oneHot enc.genderCats r.gender ++
    oneHot enc.maritalCats r.marital_status ++
    oneHot enc.occupationCats r.occupation ++
    oneHot enc.raceCats r.race ++
    oneHot enc.workclassCats r.workclass

/-- The notebook's fitted pipeline: preprocess with the column
transformer, then apply the random forest, which yields a predicted class
and class probabilities. -/
def pipelinePredict (forest : List ℚ → Nat × List ℚ) (enc : FittedEncoder)
    (r : AdultRow) : Nat × List ℚ :=
  forest (columnTransform enc r)

end Notebook

namespace XAI

/-- The adult-income feature schema inferred by the notebook's explainer
configuration: `age` and `hours_per_week` continuous, the six remaining
features categorical, all mutable. -/
def adultSchema : List FeatureDescriptor := [
  ⟨"age", FeatureKind.continuous, Domain.range 17 90, true⟩,
  ⟨"workclass", FeatureKind.categorical,
    Domain.cats ["Government", "Other/Unknown", "Private", "Self-Employed"], true⟩,
  ⟨"education", FeatureKind.categorical,
    Domain.cats ["Assoc", "Bachelors", "Doctorate", "HS-grad", "Masters",
      "Prof-school", "School", "Some-college"], true⟩,
  ⟨"marital_status", FeatureKind.categorical,
    Domain.cats ["Divorced", "Married", "Separated", "Single", "Widowed"], true⟩,
  ⟨"occupation", FeatureKind.categorical,
    Domain.cats ["Blue-Collar", "Other/Unknown", "Professional", "Sales",
      "Service", "White-Collar"], true⟩,
  ⟨"race", FeatureKind.categorical, Domain.cats ["Other", "White"], true⟩,
  ⟨"gender", FeatureKind.categorical, Domain.cats ["Female", "Male"], true⟩,
  ⟨"hours_per_week", FeatureKind.continuous, Domain.range 1 99, true⟩]

/-- The notebook's query row `x_test[0:1]` as used by the spec scenarios. -/
def adultQuery : Row := [
  ("age", Value.num 22), ("workclass", Value.cat "Private"),
  ("education", Value.cat "HS-grad"), ("marital_status", Value.cat "Single"),
  ("occupation", Value.cat "Blue-Collar"), ("race", Value.cat "White"),
  ("gender", Value.cat "Male"), ("hours_per_week", Value.num 16)]

/-- Education levels the concrete surrogate model treats as high income. -/
def highEducation : List String := ["Bachelors", "Doctorate", "Masters", "Prof-school"]

/-- A concrete surrogate predictor adapter standing in for the notebook's
fitted random forest: class 1 for high-education rows, class 0 otherwise,
with the matching class probabilities. -/
def adultAdapter : Adapter := fun r =>
  match rowLookupD r "education" with
  | Value.cat e =>
      if e ∈ highEducation then some (1, [3/10, 7/10]) else some (0, [7/10, 3/10])
  | _ => some (0, [7/10, 3/10])

/-- Parameters of the first notebook scenario: K = 5, desired class
`opposite`, no restrictions. -/
def p1 : GenParams := ⟨5, DesiredClass.opposite, none, [], 30, 1, 1, 11⟩

/-- Parameters of the permitted-range scenario: age restricted to
`[40, 50]`, education restricted to Doctorate or Prof-school. -/
def p2 : GenParams := ⟨4, DesiredClass.opposite, none,
  [("age", Domain.range 40 50), ("education", Domain.cats ["Doctorate", "Prof-school"])],
  30, 1, 1, 23⟩

/-- Parameters of the `features_to_vary` scenario: only age, education and
occupation may change, K = 4. -/
def p3 : GenParams := ⟨4, DesiredClass.opposite, some ["age", "education", "occupation"],
  [], 30, 1, 1, 37⟩

/-- Parameters of the empty-intersection scenario: requested age range
`[1000, 1001]` against the schema age domain `[17, 90]`. -/
def p4 : GenParams := ⟨4, DesiredClass.opposite, none,
  [("age", Domain.range 1000 1001)], 30, 1, 1, 5⟩

/-- Parameters of an exhausted-budget scenario: the target class 2 is
never produced by the adapter, so no candidate is ever valid. -/
def p5 : GenParams := ⟨3, DesiredClass.target 2, none, [], 10, 1, 1, 2⟩

/-- The counterfactual set of the first scenario. -/
def cfs1 : List Row :=
  ((generate_counterfactuals adultSchema adultQuery adultAdapter p1).toOption).getD []

/-- The counterfactual set of the permitted-range scenario. -/
def cfs2 : List Row :=
  ((generate_counterfactuals adultSchema adultQuery adultAdapter p2).toOption).getD []

/-- The counterfactual set of the `features_to_vary` scenario. -/
def cfs3 : List Row :=
  ((generate_counterfactuals adultSchema adultQuery adultAdapter p3).toOption).getD []

end XAI

namespace XAI

/-- `greedyPick` returns `none` exactly on the empty pool. -/
theorem greedyPick_eq_none {α : Type} (f : α → ℚ) (l : List α) :
    greedyPick f l = none ↔ l = [] := by
  cases l with
  | nil => simp [greedyPick]
  | cons x xs =>
      constructor
      · intro h
        exfalso
        simp only [greedyPick] at h
        cases hx : greedyPick f xs with
        | none => rw [hx] at h; simp at h
        | some jy =>
            obtain ⟨j, y⟩ := jy
            rw [hx] at h
            by_cases hlt : f x < f y <;> simp [hlt] at h
      · intro h
        exact absurd h (List.cons_ne_nil x xs)

/-- The element `greedyPick` returns is in the pool at the returned index,
its value under `f` is maximal over the pool, and every earlier element is
strictly smaller — so ties are broken by the earliest position. -/
theorem greedyPick_spec {α : Type} (f : α → ℚ) :
    ∀ (l : List α) (j : Nat) (c : α), greedyPick f l = some (j, c) →
      ∃ hj : j < l.length, l.get ⟨j, hj⟩ = c ∧ (∀ d ∈ l, f d ≤ f c) ∧
        ∀ i, i < j → ∀ hil : i < l.length, f (l.get ⟨i, hil⟩) < f c
  | [], j, c, h => by simp [greedyPick] at h
  | x :: xs, j, c, h => by
      simp only [greedyPick] at h
      cases hx : greedyPick f xs with
      | none =>
          rw [hx] at h
          have hxs : xs = [] := (greedyPick_eq_none f xs).mp hx
          subst hxs
          simp only [Option.some.injEq, Prod.mk.injEq] at h
          obtain ⟨hj, hc⟩ := h
          subst hj
          subst hc
          refine ⟨Nat.succ_pos 0, rfl, ?_, ?_⟩
          · intro d hd
            rcases List.mem_cons.mp hd with rfl | hd'
            · exact le_refl _
            · exact absurd hd' (List.not_mem_nil d)
          · intro i hij
            exact absurd hij (Nat.not_lt_zero i)
      | some jy =>
          obtain ⟨jx, y⟩ := jy
          rw [hx] at h
          obtain ⟨hjx, hy, hmax, hstrict⟩ := greedyPick_spec f xs jx y hx
          replace h : (if f x < f y then some (jx + 1, y) else some (0, x)) = some (j, c) := h
          by_cases hlt : f x < f y
          · rw [if_pos hlt] at h
            simp only [Option.some.injEq, Prod.mk.injEq] at h
            obtain ⟨hj, hc⟩ := h
            subst hj
            subst hc
            refine ⟨Nat.succ_lt_succ hjx, hy, ?_, ?_⟩
            · intro d hd
              rcases List.mem_cons.mp hd with rfl | hd'
              · exact le_of_lt hlt
              · exact hmax d hd'
            · intro i hij hil
              cases i with
              | zero => exact hlt
              | succ i' =>
                  exact hstrict i' (Nat.lt_of_succ_lt_succ hij) (Nat.lt_of_succ_lt_succ hil)
          · rw [if_neg hlt] at h
            simp only [Option.some.injEq, Prod.mk.injEq] at h
            obtain ⟨hj, hc⟩ := h
            subst hj
            subst hc
            refine ⟨Nat.succ_pos _, rfl, ?_, ?_⟩
            · intro d hd
              rcases List.mem_cons.mp hd with rfl | hd'
              · exact le_refl _
              · exact le_trans (hmax d hd') (not_lt.mp hlt)
            · intro i hij
              exact absurd hij (Nat.not_lt_zero i)

/-- The greedy selector returns `min K |pool|` new picks on top of the
running selection. -/
theorem selectGreedy_length (score : List Row → Row → ℚ) :
    ∀ (k : Nat) (sel pool : List Row),
      (selectGreedy score k sel pool).length = sel.length + min k pool.length
  | 0, sel, pool => by simp [selectGreedy]
  | k + 1, sel, pool => by
      simp only [selectGreedy]
      cases hx : greedyPick (score sel) pool with
      | none =>
          have hp : pool = [] := (greedyPick_eq_none _ _).mp hx
          subst hp
          simp
      | some jc =>
          obtain ⟨j, c⟩ := jc
          obtain ⟨hj, -, -, -⟩ := greedyPick_spec (score sel) pool j c hx
          have hlen := List.length_eraseIdx_of_lt hj
          have ih := selectGreedy_length score k (sel ++ [c]) (pool.eraseIdx j)
          rw [ih, hlen]
          simp only [List.length_append, List.length_cons, List.length_nil]
          omega

/-- Everything the greedy selector returns was already selected or came
from the pool. -/
theorem selectGreedy_subset (score : List Row → Row → ℚ) :
    ∀ (k : Nat) (sel pool : List Row) (c : Row),
      c ∈ selectGreedy score k sel pool → c ∈ sel ∨ c ∈ pool
  | 0, _, _, _, h => Or.inl h
  | k + 1, sel, pool, c, h => by
      simp only [selectGreedy] at h
      cases hx : greedyPick (score sel) pool with
      | none =>
          rw [hx] at h
          exact Or.inl h
      | some jc =>
          obtain ⟨j, d⟩ := jc
          rw [hx] at h
          obtain ⟨hj, hget, -, -⟩ := greedyPick_spec (score sel) pool j d hx
          rcases selectGreedy_subset score k (sel ++ [d]) (pool.eraseIdx j) c h with hs | hp
          · rcases List.mem_append.mp hs with hs' | hs'
            · exact Or.inl hs'
            · have hcd : c = d := by simpa using hs'
              subst hcd
              exact Or.inr (hget ▸ List.get_mem pool j hj)
          · exact Or.inr (List.mem_of_mem_eraseIdx hp)

/-- Row lookup on a cons cell. -/
theorem rowLookup_cons (n : String) (v : Value) (r : Row) (m : String) :
    rowLookup ((n, v) :: r) m = if n = m then some v else rowLookup r m := by
  by_cases h : n = m
  · rw [if_pos h]
    unfold rowLookup
    rw [List.find?_cons_of_pos _ (by simp [h])]
    rfl
  · rw [if_neg h]
    unfold rowLookup
    rw [List.find?_cons_of_neg _ (by simp [h])]

/-- In a candidate, a feature that is not varied carries exactly the
query row's value. -/
theorem buildCandidate_lookup_unvaried (query : Row) (ftv : FeaturesToVary)
    (pr : PermittedRange) :
    ∀ (schema : List FeatureDescriptor) (s : Nat) (d : FeatureDescriptor),
      (schema.map FeatureDescriptor.name).Nodup → d ∈ schema → varies ftv d = false →
      rowLookup (buildCandidate query ftv pr schema s) d.name =
        some (rowLookupD query d.name)
  | [], _, d, _, hd, _ => absurd hd (List.not_mem_nil d)
  | e :: es, s, d, hnd, hd, hv => by
      rw [List.map_cons, List.nodup_cons] at hnd
      obtain ⟨hne, hnd'⟩ := hnd
      simp only [buildCandidate]
      rcases List.mem_cons.mp hd with rfl | hd'
      · rw [rowLookup_cons, if_pos rfl, hv]
        simp
      · have hne' : e.name ≠ d.name := fun h =>
          hne (h ▸ List.mem_map_of_mem FeatureDescriptor.name hd')
        rw [rowLookup_cons, if_neg hne']
        exact buildCandidate_lookup_unvaried query ftv pr es (s + 1) d hnd' hd' hv

/-- In a candidate, a varied feature carries a value sampled from its
effective domain. -/
theorem buildCandidate_lookup_varied (query : Row) (ftv : FeaturesToVary)
    (pr : PermittedRange) :
    ∀ (schema : List FeatureDescriptor) (s : Nat) (d : FeatureDescriptor),
      (schema.map FeatureDescriptor.name).Nodup → d ∈ schema → varies ftv d = true →
      ∃ r, rowLookup (buildCandidate query ftv pr schema s) d.name =
        some (sampleDomain (effectiveDomain d pr) r)
  | [], _, d, _, hd, _ => absurd hd (List.not_mem_nil d)
  | e :: es, s, d, hnd, hd, hv => by
      rw [List.map_cons, List.nodup_cons] at hnd
      obtain ⟨hne, hnd'⟩ := hnd
      simp only [buildCandidate]
      rcases List.mem_cons.mp hd with rfl | hd'
      · refine ⟨rngNext s, ?_⟩
        rw [rowLookup_cons, if_pos rfl, hv]
        simp
      · have hne' : e.name ≠ d.name := fun h =>
          hne (h ▸ List.mem_map_of_mem FeatureDescriptor.name hd')
        obtain ⟨r, hr⟩ :=
          buildCandidate_lookup_varied query ftv pr es (s + 1) d hnd' hd' hv
        refine ⟨r, ?_⟩
        rw [rowLookup_cons, if_neg hne']
        exact hr

/-- A value sampled from a non-empty domain lies in that domain. -/
theorem sampleDomain_mem (dom : Domain) (r : Nat) (h : domainEmpty dom = false) :
    memD (sampleDomain dom r) dom := by
  cases dom with
  | range lo hi =>
      simp only [domainEmpty, decide_eq_false_iff_not, not_lt] at h
      have hk : r % ((hi - lo).toNat + 1) ≤ (hi - lo).toNat :=
        Nat.le_of_lt_succ (Nat.mod_lt r (Nat.succ_pos _))
      have hk2 : (Int.ofNat (r % ((hi - lo).toNat + 1))) ≤ ((hi - lo).toNat : Int) :=
        Int.ofNat_le.mpr hk
      have hk0 : 0 ≤ Int.ofNat (r % ((hi - lo).toNat + 1)) := Int.ofNat_nonneg _
      exact ⟨by omega, by omega⟩
  | cats cs =>
      simp only [domainEmpty] at h
      have hne : cs ≠ [] := by
        intro hnil
        rw [hnil] at h
        simp at h
      have hlen : r % cs.length < cs.length :=
        Nat.mod_lt r (List.length_pos.mpr hne)
      show cs.getD (r % cs.length) "" ∈ cs
      rw [List.getD_eq_getElem _ _ hlen]
      exact List.getElem_mem hlen

/-- Every drawn candidate is a `buildCandidate` of the query. -/
theorem drawFrom_mem (schema : List FeatureDescriptor) (query : Row)
    (ftv : FeaturesToVary) (pr : PermittedRange) (seed : Nat) :
    ∀ (n i : Nat) (c : Row), c ∈ drawFrom schema query ftv pr seed i n →
      ∃ s, c = buildCandidate query ftv pr schema s
  | 0, _, c, h => absurd h (List.not_mem_nil c)
  | n + 1, i, c, h => by
      rcases List.mem_cons.mp h with rfl | h'
      · exact ⟨seed + 97 * i, rfl⟩
      · exact drawFrom_mem schema query ftv pr seed n (i + 1) c h'

/-- Anatomy of a successful generation run: every returned candidate is
valid for the desired outcome and is a drawn perturbation of the query. -/
theorem gen_ok_mem (schema : List FeatureDescriptor) (query : Row) (adapter : Adapter)
    (p : GenParams) (cfs : List Row) (orig : Nat) (probs0 : List ℚ)
    (hq : adapter query = some (orig, probs0))
    (h : generate_counterfactuals schema query adapter p = Except.ok cfs) :
    ∀ c ∈ cfs, validCandidate adapter orig p.desired c = true ∧
      ∃ s, c = buildCandidate query p.featuresToVary p.permittedRange schema s := by
  intro c hc
  unfold generate_counterfactuals at h
  cases hfe : firstEmptyOverride schema p.permittedRange with
  | some f =>
      rw [hfe] at h
      exact absurd h (by simp)
  | none =>
      rw [hfe, hq] at h
      simp only [searchFromStream] at h
      split at h
      · injection h with hsel
        rw [← hsel] at hc
        rcases selectGreedy_subset _ _ _ _ _ hc with hnil | hpool
        · exact absurd hnil (List.not_mem_nil c)
        · rw [List.mem_filter] at hpool
          obtain ⟨hdraw, hvalid⟩ := hpool
          obtain ⟨s, hs⟩ := drawFrom_mem schema query p.featuresToVary p.permittedRange
            p.seed p.budget 0 c hdraw
          exact ⟨hvalid, s, hs⟩
      · exact absurd h (by simp)

end XAI

namespace XAI

/-- C1: every candidate of a returned CounterfactualSet has an adapter
prediction satisfying the requested desired-outcome specification, and
under `desired_class = opposite` each candidate differs from the query
row. -/
theorem generated_candidates_satisfy_desired_outcome
    (schema : List FeatureDescriptor) (query : Row) (adapter : Adapter)
    (p : GenParams) (cfs : List Row) (orig : Nat) (probs0 : List ℚ)
    (hq : adapter query = some (orig, probs0))
    (h : generate_counterfactuals schema query adapter p = Except.ok cfs) :
    ∀ c ∈ cfs, ∃ cls probs, adapter c = some (cls, probs) ∧
      desiredOk orig p.desired cls = true ∧
      (p.desired = DesiredClass.opposite → c ≠ query) := by
  intro c hc
  obtain ⟨hvalid, -⟩ := gen_ok_mem schema query adapter p cfs orig probs0 hq h c hc
  unfold validCandidate at hvalid
  cases ha : adapter c with
  | none =>
      rw [ha] at hvalid
      exact absurd hvalid (by simp)
  | some clsprobs =>
      obtain ⟨cls, probs⟩ := clsprobs
      rw [ha] at hvalid
      replace hvalid : desiredOk orig p.desired cls = true := hvalid
      refine ⟨cls, probs, rfl, hvalid, ?_⟩
      intro hop hcq
      rw [hop] at hvalid
      rw [hcq, hq] at ha
      simp only [Option.some.injEq, Prod.mk.injEq] at ha
      obtain ⟨hcls, -⟩ := ha
      simp only [desiredOk, decide_eq_true_eq] at hvalid
      exact hvalid hcls.symm

/-- C1 witness: in the concrete scenario (adult query row, original class
0, K = 5, `desired_class = opposite`) the run succeeds, all 5 candidates
are predicted class 1, and each differs from the query row. -/
theorem generated_candidates_satisfy_desired_outcome_witness :
    (∀ c ∈ cfs1, ∃ cls probs, adultAdapter c = some (cls, probs) ∧
        desiredOk 0 p1.desired cls = true ∧
        (p1.desired = DesiredClass.opposite → c ≠ adultQuery)) ∧
    cfs1.length = 5 ∧
    ∀ c ∈ cfs1, (adultAdapter c).map Prod.fst = some 1 :=
  ⟨generated_candidates_satisfy_desired_outcome adultSchema adultQuery adultAdapter p1
      cfs1 0 [7/10, 3/10] rfl (by with_unfolding_all rfl),
    by with_unfolding_all decide, by with_unfolding_all decide⟩

/-- C2: every feature value of a returned candidate that differs from the
query lies in the intersection of the schema domain with the supplied
permitted range. -/
theorem varied_values_lie_in_permitted_intersection
    (schema : List FeatureDescriptor) (query : Row) (adapter : Adapter)
    (p : GenParams) (cfs : List Row) (orig : Nat) (probs0 : List ℚ)
    (hnd : (schema.map FeatureDescriptor.name).Nodup)
    (hdom : ∀ d ∈ schema, domainEmpty (effectiveDomain d p.permittedRange) = false)
    (hq : adapter query = some (orig, probs0))
    (h : generate_counterfactuals schema query adapter p = Except.ok cfs) :
    ∀ c ∈ cfs, ∀ d ∈ schema,
      rowLookup c d.name ≠ some (rowLookupD query d.name) →
      ∃ v, rowLookup c d.name = some v ∧ memD v (effectiveDomain d p.permittedRange) := by
  intro c hc d hd hne
  obtain ⟨-, s, hs⟩ := gen_ok_mem schema query adapter p cfs orig probs0 hq h c hc
  subst hs
  cases hv : varies p.featuresToVary d with
  | false =>
      exact absurd (buildCandidate_lookup_unvaried query p.featuresToVary p.permittedRange
        schema s d hnd hd hv) hne
  | true =>
      obtain ⟨r, hr⟩ := buildCandidate_lookup_varied query p.featuresToVary p.permittedRange
        schema s d hnd hd hv
      exact ⟨_, hr, sampleDomain_mem _ r (hdom d hd)⟩

/-- C2 witness: with `permitted_range = (age ∈ [40,50], education ∈
(Doctorate, Prof-school))`, every candidate's age is unchanged or in
`[40, 50]` and its education unchanged or one of the two listed values. -/
theorem varied_values_lie_in_permitted_intersection_witness :
    (∀ c ∈ cfs2, ∀ d ∈ adultSchema,
        rowLookup c d.name ≠ some (rowLookupD adultQuery d.name) →
        ∃ v, rowLookup c d.name = some v ∧
          memD v (effectiveDomain d p2.permittedRange)) ∧
    (∀ c ∈ cfs2,
      (rowLookupD c "age" = Value.num 22 ∨
        memD (rowLookupD c "age") (Domain.range 40 50)) ∧
      (rowLookupD c "education" = Value.cat "HS-grad" ∨
        rowLookupD c "education" = Value.cat "Doctorate" ∨
        rowLookupD c "education" = Value.cat "Prof-school")) :=
  ⟨varied_values_lie_in_permitted_intersection adultSchema adultQuery adultAdapter p2
      cfs2 0 [7/10, 3/10] (by decide) (by decide) rfl (by with_unfolding_all rfl),
    by with_unfolding_all decide⟩

/-- C3: every feature not listed in `features_to_vary` keeps exactly the
query row's value in every returned candidate. -/
theorem unlisted_features_unchanged
    (schema : List FeatureDescriptor) (query : Row) (adapter : Adapter)
    (p : GenParams) (cfs : List Row) (ftvl : List String) (orig : Nat) (probs0 : List ℚ)
    (hnd : (schema.map FeatureDescriptor.name).Nodup)
    (hftv : p.featuresToVary = some ftvl)
    (hq : adapter query = some (orig, probs0))
    (h : generate_counterfactuals schema query adapter p = Except.ok cfs) :
    ∀ c ∈ cfs, ∀ d ∈ schema, d.name ∉ ftvl →
      rowLookup c d.name = some (rowLookupD query d.name) := by
  intro c hc d hd hnotin
  obtain ⟨-, s, hs⟩ := gen_ok_mem schema query adapter p cfs orig probs0 hq h c hc
  subst hs
  have hv : varies p.featuresToVary d = false := by
    unfold varies
    rw [hftv]
    simp [hnotin]
  exact buildCandidate_lookup_unvaried query p.featuresToVary p.permittedRange
    schema s d hnd hd hv

/-- C3 witness: with `features_to_vary = (age, education, occupation)` and
K = 4, no returned candidate changes workclass, marital_status, race,
gender, or hours_per_week. -/
theorem unlisted_features_unchanged_witness :
    (∀ c ∈ cfs3, ∀ d ∈ adultSchema, d.name ∉ ["age", "education", "occupation"] →
        rowLookup c d.name = some (rowLookupD adultQuery d.name)) ∧
    cfs3.length = 4 ∧
    (∀ c ∈ cfs3,
      rowLookup c "workclass" = some (Value.cat "Private") ∧
      rowLookup c "marital_status" = some (Value.cat "Single") ∧
      rowLookup c "race" = some (Value.cat "White") ∧
      rowLookup c "gender" = some (Value.cat "Male") ∧
      rowLookup c "hours_per_week" = some (Value.num 16)) :=
  ⟨unlisted_features_unchanged adultSchema adultQuery adultAdapter p3 cfs3
      ["age", "education", "occupation"] 0 [7/10, 3/10] (by decide) rfl rfl
      (by with_unfolding_all rfl),
    by with_unfolding_all decide, by with_unfolding_all decide⟩

end XAI

namespace XAI

/-- C4: when some supplied permitted range fails to intersect its schema
domain, generation aborts immediately with a `ConstraintError` naming a
feature whose effective domain is empty; no candidate search happens. -/
theorem empty_permitted_range_aborts_with_constraint_error
    (schema : List FeatureDescriptor) (query : Row) (adapter : Adapter)
    (p : GenParams) (d : FeatureDescriptor) (o : Domain)
    (hd : d ∈ schema)
    (ho : prLookup p.permittedRange d.name = some o)
    (he : domainEmpty (intersectD d.domain o) = true) :
    ∃ e, e ∈ schema ∧ (prLookup p.permittedRange e.name).isSome = true ∧
      domainEmpty (effectiveDomain e p.permittedRange) = true ∧
      generate_counterfactuals schema query adapter p =
        Except.error (GenError.constraintError e.name) := by
  have hpred : ((prLookup p.permittedRange d.name).isSome &&
      domainEmpty (effectiveDomain d p.permittedRange)) = true := by
    rw [ho]
    simp only [Option.isSome_some, Bool.true_and]
    unfold effectiveDomain
    rw [ho]
    exact he
  have hsome : (schema.find? (fun e => (prLookup p.permittedRange e.name).isSome &&
      domainEmpty (effectiveDomain e p.permittedRange))).isSome :=
    List.find?_isSome.mpr ⟨d, hd, hpred⟩
  obtain ⟨e, hfind⟩ := Option.isSome_iff_exists.mp hsome
  have hpe := List.find?_some hfind
  rw [Bool.and_eq_true] at hpe
  refine ⟨e, List.mem_of_find?_eq_some hfind, hpe.1, hpe.2, ?_⟩
  unfold generate_counterfactuals firstEmptyOverride
  rw [hfind]
  rfl

/-- C4 witness: requested age range `[1000, 1001]` against the schema age
domain `[17, 90]` raises `ConstraintError` for feature `age`. -/
theorem empty_permitted_range_aborts_with_constraint_error_witness :
    (∃ e, e ∈ adultSchema ∧ (prLookup p4.permittedRange e.name).isSome = true ∧
        domainEmpty (effectiveDomain e p4.permittedRange) = true ∧
        generate_counterfactuals adultSchema adultQuery adultAdapter p4 =
          Except.error (GenError.constraintError e.name)) ∧
    generate_counterfactuals adultSchema adultQuery adultAdapter p4 =
      Except.error (GenError.constraintError "age") :=
  ⟨empty_permitted_range_aborts_with_constraint_error adultSchema adultQuery adultAdapter
      p4 ⟨"age", FeatureKind.continuous, Domain.range 17 90, true⟩ (Domain.range 1000 1001)
      (by decide) rfl rfl,
    by with_unfolding_all rfl⟩

/-- C5: a generation request that passes constraint validation either
returns exactly K candidates or fails with `InsufficientCandidatesError`
carrying the partial selection and the counts; it never returns fewer
than K candidates as a success. -/
theorem exactly_k_or_insufficient_candidates
    (schema : List FeatureDescriptor) (query : Row) (adapter : Adapter)
    (p : GenParams) (orig : Nat) (probs0 : List ℚ)
    (hc : firstEmptyOverride schema p.permittedRange = none)
    (hq : adapter query = some (orig, probs0)) :
    (∃ cfs, generate_counterfactuals schema query adapter p = Except.ok cfs ∧
        cfs.length = p.totalCFs) ∨
    (∃ kept found, generate_counterfactuals schema query adapter p =
        Except.error (GenError.insufficientCandidates kept found p.totalCFs) ∧
        kept.length < p.totalCFs) := by
  have hgen : generate_counterfactuals schema query adapter p =
      searchFromStream schema query adapter orig p.desired p.divWeight p.proxWeight
        p.totalCFs
        (drawCandidates schema query p.featuresToVary p.permittedRange p.seed p.budget) := by
    unfold generate_counterfactuals
    rw [hc, hq]
  rw [hgen]
  simp only [searchFromStream]
  set pool := (drawCandidates schema query p.featuresToVary p.permittedRange p.seed
    p.budget).filter (validCandidate adapter orig p.desired) with hpool
  set sel := selectGreedy (scoreOf schema p.divWeight p.proxWeight query)
    p.totalCFs [] pool with hsel
  have hlen : sel.length = min p.totalCFs pool.length := by
    rw [hsel, selectGreedy_length]
    simp
  by_cases hK : sel.length = p.totalCFs
  · left
    exact ⟨sel, by rw [if_pos hK], hK⟩
  · right
    exact ⟨sel, pool.length, by rw [if_neg hK], by omega⟩

/-- C5 witness: with target class 2, which the binary adapter never
produces, the budget is exhausted and the run reports
`InsufficientCandidatesError` with the empty partial set and counts. -/
theorem exactly_k_or_insufficient_candidates_witness :
    ((∃ cfs, generate_counterfactuals adultSchema adultQuery adultAdapter p5 =
          Except.ok cfs ∧ cfs.length = p5.totalCFs) ∨
      (∃ kept found, generate_counterfactuals adultSchema adultQuery adultAdapter p5 =
          Except.error (GenError.insufficientCandidates kept found p5.totalCFs) ∧
          kept.length < p5.totalCFs)) ∧
    generate_counterfactuals adultSchema adultQuery adultAdapter p5 =
      Except.error (GenError.insufficientCandidates [] 0 3) :=
  ⟨exactly_k_or_insufficient_candidates adultSchema adultQuery adultAdapter p5 0
      [7/10, 3/10] rfl rfl,
    by with_unfolding_all rfl⟩

/-- C6: generation is a pure function of the query, schema, adapter and
parameters (the random seed included), so two runs on equal inputs yield
identical counterfactual sets. -/
theorem generation_deterministic_under_seed
    (schema₁ schema₂ : List FeatureDescriptor) (query₁ query₂ : Row)
    (adapter₁ adapter₂ : Adapter) (p₁ p₂ : GenParams)
    (hs : schema₁ = schema₂) (hq : query₁ = query₂)
    (ha : adapter₁ = adapter₂) (hp : p₁ = p₂) :
    generate_counterfactuals schema₁ query₁ adapter₁ p₁ =
      generate_counterfactuals schema₂ query₂ adapter₂ p₂ := by
  subst hs
  subst hq
  subst ha
  subst hp
  rfl

/-- C6 witness: two runs of the first scenario with the same seed agree. -/
theorem generation_deterministic_under_seed_witness :
    generate_counterfactuals adultSchema adultQuery adultAdapter p1 =
      generate_counterfactuals adultSchema adultQuery adultAdapter p1 :=
  generation_deterministic_under_seed adultSchema adultSchema adultQuery adultQuery
    adultAdapter adultAdapter p1 p1 rfl rfl rfl rfl

/-- C7: each selector step takes the pool candidate maximizing
`diversity_weight * diversity_against_selected + proximity_weight *
proximity_to_query`, and every earlier-generated candidate it passes over
has strictly smaller score — ties go to the earliest generation order. -/
theorem selector_step_picks_greedy_maximum
    (schema : List FeatureDescriptor) (divW proxW : ℚ) (query : Row)
    (k j : Nat) (sel pool : List Row) (c : Row)
    (h : greedyPick (scoreOf schema divW proxW query sel) pool = some (j, c)) :
    selectGreedy (scoreOf schema divW proxW query) (k + 1) sel pool =
      selectGreedy (scoreOf schema divW proxW query) k (sel ++ [c]) (pool.eraseIdx j) ∧
    (∃ hj : j < pool.length, pool.get ⟨j, hj⟩ = c) ∧
    (∀ e ∈ pool, scoreOf schema divW proxW query sel e ≤
      scoreOf schema divW proxW query sel c) ∧
    (∀ i, i < j → ∀ hil : i < pool.length,
      scoreOf schema divW proxW query sel (pool.get ⟨i, hil⟩) <
        scoreOf schema divW proxW query sel c) := by
  obtain ⟨hj, hget, hmax, hstrict⟩ := greedyPick_spec _ pool j c h
  refine ⟨?_, ⟨hj, hget⟩, hmax, hstrict⟩
  simp only [selectGreedy]
  rw [h]

/-- C7 witness: the selector step on a one-candidate pool. -/
theorem selector_step_picks_greedy_maximum_witness :
    selectGreedy (scoreOf adultSchema 1 1 adultQuery) 1 [] [adultQuery] =
      selectGreedy (scoreOf adultSchema 1 1 adultQuery) 0 ([] ++ [adultQuery])
        ([adultQuery].eraseIdx 0) ∧
    (∃ hj : 0 < [adultQuery].length, [adultQuery].get ⟨0, hj⟩ = adultQuery) ∧
    (∀ e ∈ [adultQuery], scoreOf adultSchema 1 1 adultQuery [] e ≤
      scoreOf adultSchema 1 1 adultQuery [] adultQuery) ∧
    (∀ i, i < 0 → ∀ hil : i < [adultQuery].length,
      scoreOf adultSchema 1 1 adultQuery [] ([adultQuery].get ⟨i, hil⟩) <
        scoreOf adultSchema 1 1 adultQuery [] adultQuery) :=
  selector_step_picks_greedy_maximum adultSchema 1 1 adultQuery 0 0 [] [adultQuery]
    adultQuery rfl

/-- C8: a candidate on which the adapter raises a prediction failure is
discarded on its own: the search over the stream with that candidate
equals the search over the stream without it, and the failing candidate
never appears in a returned set. -/
theorem prediction_failure_skips_only_that_candidate
    (schema : List FeatureDescriptor) (query : Row) (adapter : Adapter)
    (orig : Nat) (dc : DesiredClass) (divW proxW : ℚ) (K : Nat)
    (xs ys : List Row) (c : Row)
    (hfail : adapter c = none) :
    searchFromStream schema query adapter orig dc divW proxW K (xs ++ c :: ys) =
      searchFromStream schema query adapter orig dc divW proxW K (xs ++ ys) ∧
    ∀ cfs, searchFromStream schema query adapter orig dc divW proxW K (xs ++ c :: ys) =
        Except.ok cfs → c ∉ cfs := by
  have hvc : validCandidate adapter orig dc c = false := by
    unfold validCandidate
    rw [hfail]
  have hfilter : (xs ++ c :: ys).filter (validCandidate adapter orig dc) =
      (xs ++ ys).filter (validCandidate adapter orig dc) := by
    simp [List.filter_append, List.filter_cons, hvc]
  constructor
  · simp only [searchFromStream]
    rw [hfilter]
  · intro cfs hok hmem
    simp only [searchFromStream] at hok
    split at hok
    · injection hok with hsel
      rw [← hsel] at hmem
      rcases selectGreedy_subset _ _ _ _ _ hmem with hnil | hpoolmem
      · exact absurd hnil (List.not_mem_nil c)
      · rw [List.mem_filter] at hpoolmem
        rw [hvc] at hpoolmem
        exact absurd hpoolmem.2 (by simp)
    · exact absurd hok (by simp)

/-- An adapter that fails with a prediction error exactly on rows whose
age is negative, and otherwise predicts by an age threshold. -/
def fragileAdapter : Adapter := fun r =>
  match rowLookupD r "age" with
  | Value.num n => if n < 0 then none else some (if 40 ≤ n then 1 else 0, [1])
  | _ => some (0, [1])

/-- A malformed row on which `fragileAdapter` raises a prediction error. -/
def badRow : Row := [("age", Value.num (-5))]

/-- A well-formed high-age row. -/
def goodRow1 : Row := [("age", Value.num 50)]

/-- A second well-formed high-age row. -/
def goodRow2 : Row := [("age", Value.num 60)]

/-- C8 witness: dropping the failing middle candidate leaves the search
unchanged, and the failing candidate is never returned. -/
theorem prediction_failure_skips_only_that_candidate_witness :
    searchFromStream adultSchema adultQuery fragileAdapter 0 DesiredClass.opposite 1 1 2
        ([goodRow1] ++ badRow :: [goodRow2]) =
      searchFromStream adultSchema adultQuery fragileAdapter 0 DesiredClass.opposite 1 1 2
        ([goodRow1] ++ [goodRow2]) ∧
    ∀ cfs, searchFromStream adultSchema adultQuery fragileAdapter 0 DesiredClass.opposite
        1 1 2 ([goodRow1] ++ badRow :: [goodRow2]) = Except.ok cfs → badRow ∉ cfs :=
  prediction_failure_skips_only_that_candidate adultSchema adultQuery fragileAdapter 0
    DesiredClass.opposite 1 1 2 [goodRow1] [goodRow2] badRow rfl

/-- C9: a generation call is an explicit state transformer that hands its
environment back unchanged, so three chained calls all observe the same
original query row, and the environment after the third call equals the
initial one. -/
theorem query_and_schema_read_only
    (adapter₁ adapter₂ adapter₃ : Adapter) (p₁ p₂ p₃ : GenParams) (env : CallEnv) :
    (generateCall adapter₃ p₃ (generateCall adapter₂ p₂
        (generateCall adapter₁ p₁ env).2).2).2 = env ∧
    (generateCall adapter₁ p₁ env).1.observed = env.query ∧
    (generateCall adapter₂ p₂ (generateCall adapter₁ p₁ env).2).1.observed = env.query ∧
    (generateCall adapter₃ p₃ (generateCall adapter₂ p₂
        (generateCall adapter₁ p₁ env).2).2).1.observed = env.query :=
  ⟨rfl, rfl, rfl, rfl⟩

end XAI

namespace Notebook

/-- C10: the notebook's `ColumnTransformer` drops `age` and
`hours_per_week` (default remainder policy, only the categorical one-hot
transformer is listed), so for any fitted forest the pipeline's predicted
class and class probabilities agree on any two rows that differ only in
the continuous features. -/
theorem prediction_ignores_continuous_features
    (forest : List ℚ → Nat × List ℚ) (enc : FittedEncoder) (r₁ r₂ : AdultRow)
    (hw : r₁.workclass = r₂.workclass) (he : r₁.education = r₂.education)
    (hm : r₁.marital_status = r₂.marital_status) (ho : r₁.occupation = r₂.occupation)
    (hr : r₁.race = r₂.race) (hg : r₁.gender = r₂.gender) :
    pipelinePredict forest enc r₁ = pipelinePredict forest enc r₂ := by
  unfold pipelinePredict columnTransform
  rw [hw, he, hm, ho, hr, hg]

/-- The fitted one-hot categories, one list per categorical column. -/
def adultEncoder : FittedEncoder :=
  ⟨["Assoc", "Bachelors", "Doctorate", "HS-grad", "Masters", "Prof-school",
      "School", "Some-college"],
   ["Female", "Male"],
   ["Divorced", "Married", "Separated", "Single", "Widowed"],
   ["Blue-Collar", "Other/Unknown", "Professional", "Sales", "Service", "White-Collar"],
   ["Other", "White"],
   ["Government", "Other/Unknown", "Private", "Self-Employed"]⟩

/-- A concrete stand-in random forest over the encoded features. -/
def sampleForest : List ℚ → Nat × List ℚ := fun v =>
  (if 3 ≤ v.sum then 1 else 0, [v.sum])

/-- A young part-time variant of the query row. -/
def rowYoung : AdultRow :=
  ⟨22, "Private", "HS-grad", "Single", "Blue-Collar", "White", "Male", 16⟩

/-- The same row with age 80 and 99 weekly hours. -/
def rowOld : AdultRow :=
  ⟨80, "Private", "HS-grad", "Single", "Blue-Collar", "White", "Male", 99⟩

/-- C10 witness: two rows differing only in age and hours_per_week get
the identical prediction and probabilities. -/
theorem prediction_ignores_continuous_features_witness :
    pipelinePredict sampleForest adultEncoder rowYoung =
      pipelinePredict sampleForest adultEncoder rowOld ∧
    rowYoung.age ≠ rowOld.age ∧ rowYoung.hours_per_week ≠ rowOld.hours_per_week :=
  ⟨prediction_ignores_continuous_features sampleForest adultEncoder rowYoung rowOld
      rfl rfl rfl rfl rfl rfl,
    by decide, by decide⟩

end Notebook
